import Mathlib

/-!
Verification of the parameter-inference orchestration in
`MEA_package/ProgramFiles/runprogram.py` (function `run`, the `--infer`
branch, lines 200-246).

Values handled by the Python code are floats; we model them as rationals.
Objective values returned by the external optimizer may be non-finite
(`float('inf')` on failed fits); we model them as `WithTop ℚ`.

External collaborators that are not part of the repository sources
(`paramtime`, `hypercube`, `ParameterInference`) are modelled from the
specification; every definition carrying such a model says so in its doc
comment.  Everything else is a direct translation of `runprogram.py`.
-/

namespace Means

/-- An optimization outcome, the `result` tuple returned by
`ParameterInference.infer()`: the code only reads `result[1]`, the
objective ("distance") value, which may be non-finite. -/
structure OptResult where
  fitted : List ℚ
  objective : WithTop ℚ
deriving DecidableEq

/-- One element of the `restart_results` list built at
`runprogram.py:239`: `[result, observed_trajectories, param_n, initcond_n]`. -/
structure RestartEntry where
  result : OptResult
  observed : List (List ℚ)
  param_n : List ℚ
  initcond_n : List ℚ
deriving DecidableEq

/-- The sort key used at `runprogram.py:241`: `lambda x: x[0][1]`. -/
def keyOf (e : RestartEntry) : WithTop ℚ := e.result.objective

/-- Modelled from the spec: the random choices consumed by the
Latin-hypercube sampler (`hypercube.py` is not under `src/`).  `perm d j`
is the stratum assigned to point `j` in dimension `d` (a permutation of
the strata for each dimension), `frac d s` is the fraction (in `[0,1)`)
drawn uniformly inside stratum `s` of dimension `d`. -/
structure RandomSource where
  perm : ℕ → ℕ → ℕ
  frac : ℕ → ℕ → ℚ

/-- Modelled from the spec (§4.1): the coordinates of sampled point `j`
over the bounded dimensions `dims`, numbered from `i`.  Each dimension's
range is split into `n` equal strata; the point takes the value drawn in
its assigned stratum.  Degenerate case: a dimension with
`lower = upper` always yields that fixed value. -/
def samplePoint (rs : RandomSource) (n : ℕ) (j : ℕ) : ℕ → List (ℚ × ℚ) → List ℚ
  | _, [] => []
  | i, d :: rest =>
      (if d.1 = d.2 then d.1
       else d.1 + (((rs.perm i j : ℚ) + rs.frac i (rs.perm i j)) * (d.2 - d.1)) / (n : ℚ))
        :: samplePoint rs n j (i + 1) rest

/-- Modelled from the spec (§4.1): `hypercube.py` is not under `src/`.
`generate(n, bounded_dimensions)` returns `n` points, each a vector over
the same dimensions, Latin-hypercube distributed. -/
def hypercube (n : ℕ) (dims : List (ℚ × ℚ)) (rs : RandomSource) : List (List ℚ) :=
  (List.range n).map (fun j => samplePoint rs n j 0 dims)

/-- The dimension list the code hands to the sampler at
`runprogram.py:211`: `param[:] + initcond[:]` — ALL slots, fixed ones
included (fixedness is encoded as a degenerate `lower = upper` range). -/
def codeSamplerDims (param initcond : List (ℚ × ℚ)) : List (ℚ × ℚ) :=
  param ++ initcond

/-- Follows the spec's words (§4.5 step 3), for comparison with
`codeSamplerDims`: "concatenate the variable parameter slots and variable
initial-condition slots into one bounded vector space" — only the slots
whose variability flag is set. -/
def specSamplerDims (param initcond : List (ℚ × ℚ)) (vary varyic : List Bool) :
    List (ℚ × ℚ) :=
  ((param.zip vary).filter (fun s => s.2)).map (fun s => s.1)
    ++ ((initcond.zip varyic).filter (fun s => s.2)).map (fun s => s.1)

/-- `runprogram.py:211-213`: draw `nRestart` points over all parameter
and initial-condition slots, then split each point positionally at
`len(param)`. -/
def allParamsRestart (n : ℕ) (param initcond : List (ℚ × ℚ)) (rs : RandomSource) :
    List (List ℚ × List ℚ) :=
  (hypercube n (codeSamplerDims param initcond) rs).map
    (fun x => (x.take param.length, x.drop param.length))

/-- `runprogram.py:220-226`: the padding block inside the per-start
loop.  Input: the model size `m`, this start's initial-condition vector,
the current (shared) `varyic` mask and the current value of the
`initcond_full` binding (`none` = not yet bound).  Python's
`[0] * diff` is empty for negative `diff`, which ℕ-subtraction mirrors. -/
def padStep (m : ℕ) (ic : List ℚ) (varyic : List Bool) (icFull : Option (List ℚ)) :
    List ℚ × List Bool × Option (List ℚ) :=
  if ic.length ≠ m then
    (ic ++ List.replicate (m - ic.length) 0,
     varyic ++ List.replicate (m - ic.length) false,
     some (ic ++ List.replicate (m - ic.length) 0))
  else (ic, varyic, icFull)

/-- Modelled from the spec: `ParameterInference` (`sumsq_infer.py`) is
not under `src/`.  The optimizer is an opaque pure oracle from the call
index (standing for its internal stochastic state) and the
with-variability parameter and initial-condition lists to an outcome. -/
abbrev Oracle := ℕ → List (ℚ × Bool) → List (ℚ × Bool) → OptResult

/-- The mutable state threaded through the per-start loop of
`runprogram.py:218-239`: the shared `varyic` list (mutated in place by
`varyic += [False] * diff`), the `initcond_full` binding, the
accumulated `restart_results`, the number of optimizer invocations so
far and the `method=` strings passed to them. -/
structure LoopState where
  varyic : List Bool
  icFull : Option (List ℚ)
  results : List RestartEntry
  calls : ℕ
  methods : List String

/-- One iteration of the loop body `runprogram.py:218-239` for the pair
`(param_n, initcond_n)`. -/
def loopStep (m : ℕ) (vary : List Bool) (method : String) (oracle : Oracle)
    (observed : List (List ℚ)) (st : LoopState) (p : List ℚ × List ℚ) : LoopState :=
  let padded := padStep m p.2 st.varyic st.icFull
  let icn := padded.1
  let vic := padded.2.1
  let pwv := p.1.zip vary
  let iwv := icn.zip vic
  let result := oracle st.calls pwv iwv
  { varyic := vic
    icFull := padded.2.2
    results := st.results ++ [⟨result, observed, p.1, icn⟩]
    calls := st.calls + 1
    methods := st.methods ++ [method] }

/-- The whole per-start loop, folded over `all_params`. -/
def runLoop (m : ℕ) (vary : List Bool) (method : String) (oracle : Oracle)
    (observed : List (List ℚ)) (varyic0 : List Bool)
    (allParams : List (List ℚ × List ℚ)) : LoopState :=
  allParams.foldl (loopStep m vary method oracle observed) ⟨varyic0, none, [], 0, []⟩

/-- `runprogram.py:231`: `distribution if distribution else 'sum_of_squares'`. -/
def methodOf (dist : Option String) : String := dist.getD "sum_of_squares"

/-- `runprogram.py:241`: the inner step of Python's stable ascending
`list.sort(key=lambda x: x[0][1], reverse=False)` — insert `a` (an
element submitted earlier than everything in the already-sorted list)
before the first element with a strictly larger key. -/
def orderedInsertE (a : RestartEntry) : List RestartEntry → List RestartEntry
  | [] => [a]
  | b :: t => if keyOf a ≤ keyOf b then a :: b :: t else b :: orderedInsertE a t

/-- Python's `list.sort` is a stable ascending sort; any stable
comparison sort of the same key computes the same list, so we model it
as stable insertion sort on `keyOf`. -/
def sortResults : List RestartEntry → List RestartEntry
  | [] => []
  | a :: t => orderedInsertE a (sortResults t)

/-- Modelled from the spec (§2, §6): the content of the
timepoint/parameter file as `paramtime` (`paramtime.py`, not under
`src/`) parses it.  `malformed` marks a file on which the parser raises
`ValueError`.  Under the `--restart` flag the file specifies a
`(lower, upper)` range per parameter and per initial condition (per the
`--restart` help text, `runprogram.py:46`, and §4.1; a fixed slot is a
degenerate range with `lower = upper`); otherwise it specifies plain
values.  `vary`/`varyic` are the variability masks. -/
structure PTFile where
  t : List ℚ
  paramValues : List ℚ
  icValues : List ℚ
  paramRanges : List (ℚ × ℚ)
  icRanges : List (ℚ × ℚ)
  vary : List Bool
  varyic : List Bool
  malformed : Bool

/-- The outcome of the `paramtime(wd + tpfile, restart, limit)` call at
`runprogram.py:205`. -/
inductive PTResult where
  | valueError
  | okPlain (t : List ℚ) (param initcond : List ℚ) (vary varyic : List Bool)
  | okRanges (t : List ℚ) (param initcond : List (ℚ × ℚ)) (vary varyic : List Bool)

/-- Modelled from the spec: `paramtime.py` is not under `src/`.  It
returns `[t, param, initcond, vary, varyic, limits]`, raising
`ValueError` on a malformed file (§6); the shape of the `param` and
`initcond` entries depends on the `restart` flag it receives. -/
def paramtime (f : PTFile) (restart : Bool) : PTResult :=
  if f.malformed then .valueError
  else if restart then .okRanges f.t f.paramRanges f.icRanges f.vary f.varyic
  else .okPlain f.t f.paramValues f.icValues f.vary f.varyic

/-- The inputs to the `--infer` branch of `run` that the claims can
vary: command-line derived configuration, the parsed problem size
(`problem.number_of_equations`), the spec file, the sampler's random
choices and the optimizer oracle.  `nRestart` is the `--nRestart=`
string after `int()`: `none` models an unparseable value (Python's
`int(...)` raises `ValueError`). -/
structure InferInputs where
  tpfile : String
  restart : Bool
  nRestart : Option ℕ
  distribution : Option String
  m : ℕ
  file : PTFile
  rs : RandomSource
  oracle : Oracle
  observed : List (List ℚ)

/-- The observable outcome of one `--infer` run: exit code and message
of an explicit `sys.exit`, the name of an uncaught exception if one is
raised, whether `hypercube` was invoked, the `all_params` starting
points, the optimizer invocation count and methods, the final value of
the shared `varyic` list, the final `initcond_full` binding (`none` =
never bound), the sorted `restart_results` and whether
`write_inference_results` was invoked. -/
structure RunTrace where
  exitCode : Option ℕ
  message : String
  uncaught : Option String
  hypercubeCalled : Bool
  startingPoints : List (List ℚ × List ℚ)
  optimizerCalls : ℕ
  methods : List String
  finalVaryic : List Bool
  finalIcFull : Option (List ℚ)
  sortedResults : List RestartEntry
  writerInvoked : Bool

/-- The `sys.exit(1)` path of `runprogram.py:206-209`. -/
def abortTrace (code : ℕ) (msg : String) : RunTrace :=
  ⟨some code, msg, none, false, [], 0, [], [], none, [], false⟩

/-- An uncaught exception raised before the sampler/loop run
(`int(nRestart)` at `runprogram.py:211`). -/
def crashTrace (exc : String) : RunTrace :=
  ⟨none, "", some exc, false, [], 0, [], [], none, [], false⟩

/-- The message printed at `runprogram.py:207-208`, which names the
offending file. -/
def ptErrorMsg (tpfile : String) : String :=
  tpfile ++ " is not in correct format. Ensure you have entered upper and lower bounds for all parameter values."

/-- `runprogram.py:241-246`: sort the collected results, then call
`write_inference_results(restart_results, t, vary, initcond_full,
varyic, ...)`.  If `initcond_full` was never bound (no iteration took
the padding branch), evaluating it raises `UnboundLocalError` and the
writer is never entered. -/
def finishTrace (hyp : Bool) (sps : List (List ℚ × List ℚ)) (st : LoopState) : RunTrace :=
  match st.icFull with
  | none =>
      ⟨none, "", some "UnboundLocalError", hyp, sps, st.calls, st.methods,
       st.varyic, none, sortResults st.results, false⟩
  | some ic =>
      ⟨none, "", none, hyp, sps, st.calls, st.methods,
       st.varyic, some ic, sortResults st.results, true⟩

/-- The `--infer` branch of `run`, `runprogram.py:204-246`: call
`paramtime` (aborting on `ValueError`), build `all_params` (via
`hypercube` when the `restart` flag is set, the single spec point
otherwise), run the per-start loop, sort, and write. -/
def runInfer (inp : InferInputs) : RunTrace :=
  match paramtime inp.file inp.restart with
  | .valueError => abortTrace 1 (ptErrorMsg inp.tpfile)
  | .okPlain _t param initcond vary varyic =>
      let aps := [(param, initcond)]
      finishTrace false aps
        (runLoop inp.m vary (methodOf inp.distribution) inp.oracle inp.observed varyic aps)
  | .okRanges _t param initcond vary varyic =>
      match inp.nRestart with
      | none => crashTrace "ValueError"
      | some n =>
          let aps := allParamsRestart n param initcond inp.rs
          finishTrace true aps
            (runLoop inp.m vary (methodOf inp.distribution) inp.oracle inp.observed varyic aps)

/-! ### Helper lemmas -/

lemma samplePoint_length (rs : RandomSource) (n j : ℕ) :
    ∀ (i : ℕ) (dims : List (ℚ × ℚ)), (samplePoint rs n j i dims).length = dims.length := by
  intro i dims
  induction dims generalizing i with
  | nil => rfl
  | cons d rest ih => simp [samplePoint, ih]

lemma samplePoint_getElem_fixed (rs : RandomSource) (n j : ℕ) :
    ∀ (dims : List (ℚ × ℚ)) (i k : ℕ) (lo : ℚ), dims[k]? = some (lo, lo) →
      (samplePoint rs n j i dims)[k]? = some lo := by
  intro dims
  induction dims with
  | nil => intro i k lo h; simp at h
  | cons d rest ih =>
      intro i k lo h
      cases k with
      | zero =>
          simp at h
          simp [samplePoint, h]
      | succ k =>
          simp at h
          simpa [samplePoint] using ih (i + 1) k lo (by simpa using h)

lemma samplePoint_append (rs : RandomSource) (n j : ℕ) :
    ∀ (A B : List (ℚ × ℚ)) (i : ℕ),
      samplePoint rs n j i (A ++ B) =
        samplePoint rs n j i A ++ samplePoint rs n j (i + A.length) B := by
  intro A
  induction A with
  | nil => intro B i; simp [samplePoint]
  | cons d rest ih =>
      intro B i
      simp [samplePoint, ih]
      ring_nf

lemma hypercube_length (n : ℕ) (dims : List (ℚ × ℚ)) (rs : RandomSource) :
    (hypercube n dims rs).length = n := by
  simp [hypercube]

lemma hypercube_mem (n : ℕ) (dims : List (ℚ × ℚ)) (rs : RandomSource) (x : List ℚ)
    (hx : x ∈ hypercube n dims rs) : ∃ j, j < n ∧ x = samplePoint rs n j 0 dims := by
  simp only [hypercube, List.mem_map, List.mem_range] at hx
  obtain ⟨j, hj, hxe⟩ := hx
  exact ⟨j, hj, hxe.symm⟩

lemma runLoop_fold_calls (m : ℕ) (vary : List Bool) (method : String) (oracle : Oracle)
    (observed : List (List ℚ)) :
    ∀ (aps : List (List ℚ × List ℚ)) (st : LoopState),
      (aps.foldl (loopStep m vary method oracle observed) st).calls = st.calls + aps.length := by
  intro aps
  induction aps with
  | nil => intro st; simp
  | cons p rest ih =>
      intro st
      simp only [List.foldl_cons, ih, loopStep, List.length_cons]
      omega

lemma runLoop_fold_methods (m : ℕ) (vary : List Bool) (method : String) (oracle : Oracle)
    (observed : List (List ℚ)) :
    ∀ (aps : List (List ℚ × List ℚ)) (st : LoopState),
      (aps.foldl (loopStep m vary method oracle observed) st).methods
        = st.methods ++ List.replicate aps.length method := by
  intro aps
  induction aps with
  | nil => intro st; simp
  | cons p rest ih =>
      intro st
      simp [List.foldl_cons, ih, loopStep, List.replicate_succ]

lemma runLoop_fold_icFull_none (m : ℕ) (vary : List Bool) (method : String) (oracle : Oracle)
    (observed : List (List ℚ)) :
    ∀ (aps : List (List ℚ × List ℚ)) (st : LoopState), (∀ p ∈ aps, p.2.length = m) →
      st.icFull = none →
      (aps.foldl (loopStep m vary method oracle observed) st).icFull = none := by
  intro aps
  induction aps with
  | nil => intro st _ hst; simpa using hst
  | cons p rest ih =>
      intro st hall hst
      have hp : p.2.length = m := hall p (by simp)
      refine ih _ (fun q hq => hall q (by simp [hq])) ?_
      simp [loopStep, padStep, hp, hst]

lemma orderedInsertE_head_of_le (a b : RestartEntry) (t : List RestartEntry)
    (h : keyOf a ≤ keyOf b) : orderedInsertE a (b :: t) = a :: b :: t := by
  simp [orderedInsertE, h]

lemma orderedInsertE_head_of_gt (a b : RestartEntry) (t : List RestartEntry)
    (h : ¬ keyOf a ≤ keyOf b) : orderedInsertE a (b :: t) = b :: orderedInsertE a t := by
  simp [orderedInsertE, h]

lemma finishTrace_startingPoints (h : Bool) (sps : List (List ℚ × List ℚ)) (st : LoopState) :
    (finishTrace h sps st).startingPoints = sps := by
  unfold finishTrace
  cases st.icFull <;> rfl

lemma finishTrace_hypercubeCalled (h : Bool) (sps : List (List ℚ × List ℚ)) (st : LoopState) :
    (finishTrace h sps st).hypercubeCalled = h := by
  unfold finishTrace
  cases st.icFull <;> rfl

lemma finishTrace_calls (h : Bool) (sps : List (List ℚ × List ℚ)) (st : LoopState) :
    (finishTrace h sps st).optimizerCalls = st.calls := by
  unfold finishTrace
  cases st.icFull <;> rfl

lemma finishTrace_methods (h : Bool) (sps : List (List ℚ × List ℚ)) (st : LoopState) :
    (finishTrace h sps st).methods = st.methods := by
  unfold finishTrace
  cases st.icFull <;> rfl

lemma finishTrace_exitCode (h : Bool) (sps : List (List ℚ × List ℚ)) (st : LoopState) :
    (finishTrace h sps st).exitCode = none := by
  unfold finishTrace
  cases st.icFull <;> rfl

lemma finishTrace_of_icFull_none (h : Bool) (sps : List (List ℚ × List ℚ)) (st : LoopState)
    (hic : st.icFull = none) :
    (finishTrace h sps st).finalIcFull = none ∧
      (finishTrace h sps st).uncaught = some "UnboundLocalError" ∧
      (finishTrace h sps st).writerInvoked = false := by
  simp [finishTrace, hic]

lemma finishTrace_of_icFull_some (h : Bool) (sps : List (List ℚ × List ℚ)) (st : LoopState)
    (ic : List ℚ) (hic : st.icFull = some ic) :
    (finishTrace h sps st).writerInvoked = true ∧
      (finishTrace h sps st).exitCode = none ∧
      (finishTrace h sps st).uncaught = none := by
  simp [finishTrace, hic]

lemma runInfer_plain (inp : InferInputs) (hm : inp.file.malformed = false)
    (hr : inp.restart = false) :
    runInfer inp = finishTrace false [(inp.file.paramValues, inp.file.icValues)]
      (runLoop inp.m inp.file.vary (methodOf inp.distribution) inp.oracle inp.observed
        inp.file.varyic [(inp.file.paramValues, inp.file.icValues)]) := by
  simp [runInfer, paramtime, hm, hr]

lemma runInfer_restart (inp : InferInputs) (hm : inp.file.malformed = false)
    (hr : inp.restart = true) (n : ℕ) (hn : inp.nRestart = some n) :
    runInfer inp = finishTrace true
      (allParamsRestart n inp.file.paramRanges inp.file.icRanges inp.rs)
      (runLoop inp.m inp.file.vary (methodOf inp.distribution) inp.oracle inp.observed
        inp.file.varyic (allParamsRestart n inp.file.paramRanges inp.file.icRanges inp.rs)) := by
  simp [runInfer, paramtime, hm, hr, hn]

lemma runInfer_restart_badcount (inp : InferInputs) (hm : inp.file.malformed = false)
    (hr : inp.restart = true) (hn : inp.nRestart = none) :
    runInfer inp = crashTrace "ValueError" := by
  simp [runInfer, paramtime, hm, hr, hn]

lemma runInfer_malformed (inp : InferInputs) (hm : inp.file.malformed = true) :
    runInfer inp = abortTrace 1 (ptErrorMsg inp.tpfile) := by
  simp [runInfer, paramtime, hm]

lemma finishTrace_writer_of_finalIcFull (h : Bool) (sps : List (List ℚ × List ℚ))
    (st : LoopState) (ic : List ℚ)
    (hic : (finishTrace h sps st).finalIcFull = some ic) :
    (finishTrace h sps st).writerInvoked = true ∧
      (finishTrace h sps st).exitCode = none ∧
      (finishTrace h sps st).uncaught = none := by
  cases hst : st.icFull with
  | none => simp [finishTrace, hst] at hic
  | some ic2 => simp [finishTrace, hst]

lemma allParamsRestart_length (n : ℕ) (param initcond : List (ℚ × ℚ)) (rs : RandomSource) :
    (allParamsRestart n param initcond rs).length = n := by
  simp [allParamsRestart, hypercube_length]

/-- A fixed trivial random source for concrete runs. -/
def rsZero : RandomSource := ⟨fun _ _ => 0, fun _ _ => 0⟩

/-- A constant optimizer oracle. -/
def oracleConst (r : OptResult) : Oracle := fun _ _ _ => r

/-- A successful optimization outcome with objective `0`. -/
def optZero : OptResult := ⟨[], (0 : ℚ)⟩

/-- An optimizer oracle whose every run fails to produce a finite
objective. -/
def oracleFail : Oracle := fun _ _ _ => ⟨[], ⊤⟩

/-! ### C5 -/

/-- C5: the collected results are sorted ascending by objective value
with a stable sort (`runprogram.py:241`); the element at index 0 has an
objective value minimal over all results, and among equal-objective
results it is the first-submitted one (`List.find?` on the original
submission order returns exactly it). -/
theorem sorted_results_head_is_first_min (l : List RestartEntry) (h : l ≠ []) :
    ∃ r0, (sortResults l).head? = some r0 ∧
      (∀ b ∈ l, keyOf r0 ≤ keyOf b) ∧
      l.find? (fun b => decide (keyOf b = keyOf r0)) = some r0 := by
  induction l with
  | nil => exact absurd rfl h
  | cons a t ih =>
      cases t with
      | nil =>
          refine ⟨a, by simp [sortResults, orderedInsertE], ?_, ?_⟩
          · intro b hb
            simp at hb
            simp [hb]
          · simp [List.find?]
      | cons c t2 =>
          obtain ⟨r0, hhead, hmin, hfind⟩ := ih (by simp)
          obtain ⟨rest, hrest⟩ : ∃ rest, sortResults (c :: t2) = r0 :: rest := by
            cases hs : sortResults (c :: t2) with
            | nil => rw [hs] at hhead; simp at hhead
            | cons x xs =>
                rw [hs] at hhead
                simp at hhead
                exact ⟨xs, by rw [hhead]⟩
          have hst : sortResults (a :: c :: t2) = orderedInsertE a (r0 :: rest) := by
            rw [← hrest]
            rfl
          by_cases hle : keyOf a ≤ keyOf r0
          · refine ⟨a, ?_, ?_, ?_⟩
            · rw [hst, orderedInsertE_head_of_le a r0 rest hle]
              rfl
            · intro b hb
              rcases List.mem_cons.mp hb with hb | hb
              · simp [hb]
              · exact le_trans hle (hmin b hb)
            · exact List.find?_cons_of_pos _ (by simp)
          · refine ⟨r0, ?_, ?_, ?_⟩
            · rw [hst, orderedInsertE_head_of_gt a r0 rest hle]
              rfl
            · intro b hb
              rcases List.mem_cons.mp hb with hb | hb
              · rw [hb]
                exact le_of_lt (lt_of_not_le hle)
              · exact hmin b hb
            · have hne : keyOf a ≠ keyOf r0 := ne_of_gt (lt_of_not_le hle)
              rw [List.find?_cons_of_neg _ (by simp [hne])]
              exact hfind

/-- A concrete entry with objective value `q` and tag list `tag` (the
tag distinguishes first-submitted from later-submitted ties). -/
def mkEntry (q : ℚ) (tag : List ℚ) : RestartEntry :=
  ⟨⟨[], (q : WithTop ℚ)⟩, [], tag, []⟩

/-- Witness for C5 at the spec's own example: objectives `[5, 1, 3]`
followed by checking the theorem applies. -/
theorem sorted_results_head_is_first_min_witness :
    ([mkEntry 5 [0], mkEntry 1 [1], mkEntry 3 [2]] : List RestartEntry) ≠ [] ∧
      (∃ r0, (sortResults [mkEntry 5 [0], mkEntry 1 [1], mkEntry 3 [2]]).head? = some r0 ∧
        (∀ b ∈ [mkEntry 5 [0], mkEntry 1 [1], mkEntry 3 [2]], keyOf r0 ≤ keyOf b) ∧
        [mkEntry 5 [0], mkEntry 1 [1], mkEntry 3 [2]].find?
          (fun b => decide (keyOf b = keyOf r0)) = some r0) :=
  ⟨by simp [mkEntry],
   sorted_results_head_is_first_min [mkEntry 5 [0], mkEntry 1 [1], mkEntry 3 [2]]
     (by simp [mkEntry])⟩

/-! ### C1 -/

/-- C1 counterexample: with one fixed parameter slot (degenerate range
`(1, 1)`, variability flag `false`) and one variable slot, the dimension
list `runprogram.py:211` hands to the sampler (`param[:] + initcond[:]`)
contains BOTH slots, whereas the space made of only the variable slots
has a single dimension — the code does not concatenate only the variable
slots. -/
theorem sampler_receives_fixed_slots :
    codeSamplerDims [((1 : ℚ), 1), ((0 : ℚ), 2)] [] = [((1 : ℚ), 1), ((0 : ℚ), 2)] ∧
    specSamplerDims [((1 : ℚ), 1), ((0 : ℚ), 2)] [] [false, true] [] = [((0 : ℚ), 2)] ∧
    (codeSamplerDims [((1 : ℚ), 1), ((0 : ℚ), 2)] []).length ≠
      (specSamplerDims [((1 : ℚ), 1), ((0 : ℚ), 2)] [] [false, true] []).length := by
  refine ⟨rfl, ?_, ?_⟩ <;> simp [codeSamplerDims, specSamplerDims]

/-- C1 (amended): under the restart flag the orchestrator concatenates
ALL parameter slots and ALL initial-condition slots (fixed slots being
degenerate `lower = upper` ranges) into one bounded space, draws
`nRestart` points from the sampler over that space, and splits each
point positionally at the parameter count; every fixed (degenerate)
slot keeps its spec value in every starting point. -/
theorem restart_sampling_all_slots (n : ℕ) (param initcond : List (ℚ × ℚ))
    (rs : RandomSource) :
    (allParamsRestart n param initcond rs).length = n ∧
    (∀ p ∈ allParamsRestart n param initcond rs,
      p.1.length = param.length ∧ p.2.length = initcond.length ∧
      (∀ (i : ℕ) (lo : ℚ), param[i]? = some (lo, lo) → p.1[i]? = some lo) ∧
      (∀ (i : ℕ) (lo : ℚ), initcond[i]? = some (lo, lo) → p.2[i]? = some lo)) := by
  refine ⟨allParamsRestart_length n param initcond rs, ?_⟩
  intro p hp
  simp only [allParamsRestart, List.mem_map] at hp
  obtain ⟨x, hx, hpe⟩ := hp
  obtain ⟨j, _hj, hxe⟩ := hypercube_mem n (codeSamplerDims param initcond) rs x hx
  have hxlen : x.length = param.length + initcond.length := by
    rw [hxe, samplePoint_length, codeSamplerDims, List.length_append]
  subst hpe
  refine ⟨?_, ?_, ?_, ?_⟩
  · simp [List.length_take, hxlen]
  · simp [List.length_drop, hxlen]
  · intro i lo hi
    have hilt : i < param.length := by
      by_contra hc
      rw [List.getElem?_eq_none (by omega)] at hi
      exact Option.noConfusion hi
    have hdim : (codeSamplerDims param initcond)[i]? = some (lo, lo) := by
      rw [codeSamplerDims, List.getElem?_append, if_pos hilt]
      exact hi
    have hxi : x[i]? = some lo := by
      rw [hxe]
      exact samplePoint_getElem_fixed rs n j (codeSamplerDims param initcond) 0 i lo hdim
    simpa [List.getElem?_take, hilt] using hxi
  · intro i lo hi
    have hilt : i < initcond.length := by
      by_contra hc
      rw [List.getElem?_eq_none (by omega)] at hi
      exact Option.noConfusion hi
    have hdim : (codeSamplerDims param initcond)[param.length + i]? = some (lo, lo) := by
      rw [codeSamplerDims, List.getElem?_append, if_neg (by omega)]
      simpa using hi
    have hxi : x[param.length + i]? = some lo := by
      rw [hxe]
      exact samplePoint_getElem_fixed rs n j (codeSamplerDims param initcond) 0
        (param.length + i) lo hdim
    rw [List.getElem?_drop]
    exact hxi

/-- Witness for C1's amended theorem at `n = 2` with one fixed parameter
slot `(1, 1)` and one fixed initial-condition slot `(0, 0)`. -/
theorem restart_sampling_all_slots_witness :
    (([(1 : ℚ)], [(0 : ℚ)]) ∈ allParamsRestart 2 [((1 : ℚ), 1)] [((0 : ℚ), 0)] rsZero) ∧
    ([(1 : ℚ)] : List ℚ)[0]? = some 1 :=
  ⟨by simp [allParamsRestart, codeSamplerDims, hypercube, List.range_succ, samplePoint],
   ((restart_sampling_all_slots 2 [((1 : ℚ), 1)] [((0 : ℚ), 0)] rsZero).2 ([1], [0])
      (by simp [allParamsRestart, codeSamplerDims, hypercube, List.range_succ,
            samplePoint])).2.2.1 0 1 rfl⟩

/-! ### C2 -/

/-- C2 counterexample: an initial-condition spec of length `k = 2` with
a model of `m = 1` equations does NOT fail — `runprogram.py:223-224`
computes a negative `diff`, `[0] * diff` is empty, and the spec is
returned unchanged (the block still binds `initcond_full`); no
`DimensionMismatchError` is raised anywhere. -/
theorem overlong_initcond_does_not_fail :
    padStep 1 [(5 : ℚ), 6] [true, true] none
      = ([(5 : ℚ), 6], [true, true], some [(5 : ℚ), 6]) ∧
    (padStep 1 [(5 : ℚ), 6] [true, true] none).1.length ≠ 1 := by
  constructor
  · simp [padStep]
  · simp [padStep]

/-- C2 (amended): given an initial-condition spec of length `k` (with a
variability mask of the same length) and a model with `m` equations, if
`k < m` the padded spec has length `m`, its first `k` entries are
unchanged and the remaining `m - k` (value, variability) pairs all equal
`(0, false)`; if `k > m` the code leaves the spec and the mask unchanged
and raises no error. -/
theorem padding_behavior (m : ℕ) (ic : List ℚ) (varyic : List Bool)
    (icf : Option (List ℚ)) (hlen : varyic.length = ic.length) :
    (ic.length < m →
      (padStep m ic varyic icf).1.length = m ∧
      (padStep m ic varyic icf).1.take ic.length = ic ∧
      ((padStep m ic varyic icf).1.zip (padStep m ic varyic icf).2.1).drop ic.length
        = List.replicate (m - ic.length) ((0 : ℚ), false)) ∧
    (m < ic.length →
      (padStep m ic varyic icf).1 = ic ∧ (padStep m ic varyic icf).2.1 = varyic) := by
  constructor
  · intro hk
    have hne : ic.length ≠ m := ne_of_lt hk
    simp only [padStep, if_pos hne]
    refine ⟨?_, List.take_left ic _, ?_⟩
    · simp only [List.length_append, List.length_replicate]
      omega
    · rw [List.zip_append hlen.symm, List.drop_left' (by simp [hlen]), List.zip_replicate]
      simp
  · intro hk
    have hne : ic.length ≠ m := by omega
    have hz : m - ic.length = 0 := by omega
    simp [padStep, hne, hz]

/-- Witness for C2's amended theorem at `k = 1 < m = 3`. -/
theorem padding_behavior_witness :
    (padStep 3 [(5 : ℚ)] [true] none).1.length = 3 ∧
    (padStep 3 [(5 : ℚ)] [true] none).1.take 1 = [(5 : ℚ)] ∧
    ((padStep 3 [(5 : ℚ)] [true] none).1.zip (padStep 3 [(5 : ℚ)] [true] none).2.1).drop 1
      = List.replicate 2 ((0 : ℚ), false) :=
  (padding_behavior 3 [5] [true] none rfl).1 (by simp)

/-! ### C3 -/

/-- Spec file for the C3 run: one variable parameter range `(0, 2)`,
one fixed initial-condition range `(0, 0)`, model with 2 equations. -/
def fileC3 : PTFile :=
  ⟨[0], [], [], [((0 : ℚ), 2)], [((0 : ℚ), 0)], [true], [false], false⟩

def inpC3 : InferInputs :=
  ⟨"p.txt", true, some 2, none, 2, fileC3, rsZero, oracleConst optZero, []⟩

/-- C3 evidence: in the run `inpC3` (restart flag set, 2 restarts,
`m = 2` equations, initial-condition spec of length 1) the sampler is
invoked over the UNPADDED space — every starting point handed to the
split has an initial-condition vector of length 1, not `m = 2` — and the
padding to length 2 only happens afterwards, inside the per-start loop
(`initcond_full` ends up bound to the padded `[0, 0]`).  Padding is NOT
performed before sampling. -/
theorem padding_happens_after_sampling :
    (runInfer inpC3).hypercubeCalled = true ∧
    inpC3.m = 2 ∧
    (runInfer inpC3).startingPoints.map (fun p => p.2.length) = [1, 1] ∧
    (runInfer inpC3).finalIcFull = some [0, 0] := by
  refine ⟨?_, rfl, ?_, ?_⟩ <;>
    simp [runInfer, paramtime, inpC3, fileC3, allParamsRestart, codeSamplerDims, hypercube,
      List.range_succ, samplePoint, rsZero, runLoop, loopStep, padStep, finishTrace,
      methodOf, oracleConst, optZero]

/-! ### C4 -/

/-- Spec file for the C4 run: same as C3 but with the single
initial-condition slot marked variable, so the mask mutation is
visible. -/
def fileC4 : PTFile :=
  ⟨[0], [], [], [((0 : ℚ), 2)], [((0 : ℚ), 0)], [true], [true], false⟩

def inpC4 : InferInputs :=
  ⟨"p.txt", true, some 2, none, 2, fileC4, rsZero, oracleConst optZero, []⟩

/-- C4 evidence: the shared `varyic` mask starts as `[true]` (length 1);
`varyic += [False] * diff` at `runprogram.py:226` mutates it in place
inside the per-start loop, so after the first start the remaining start
sees `[true, false]`, and after both starts the shared mask has grown to
`[true, false, false]` — the shared input is mutated by per-start
work. -/
theorem shared_varyic_mutated_across_starts :
    inpC4.file.varyic = [true] ∧
    (runInfer inpC4).finalVaryic = [true, false, false] := by
  refine ⟨rfl, ?_⟩
  simp [runInfer, paramtime, inpC4, fileC4, allParamsRestart, codeSamplerDims, hypercube,
    List.range_succ, samplePoint, rsZero, runLoop, loopStep, padStep, finishTrace,
    methodOf, oracleConst, optZero]

/-! ### C6 -/

/-- Spec file for the C6 run: one variable parameter range, no
initial-condition entries, model with 1 equation. -/
def fileC6 : PTFile := ⟨[0], [], [], [((0 : ℚ), 2)], [], [true], [], false⟩

def inpC6 : InferInputs :=
  ⟨"p.txt", true, some 1, none, 1, fileC6, rsZero, oracleConst optZero, []⟩

/-- C6 counterexample: a run requesting `nRestart = 1` restarts with the
restart flag set DOES invoke the sampler (`runprogram.py:210` branches
on the `restart` flag, not on the restart count), and the single
starting point is a sampled point, not the spec's values. -/
theorem single_restart_still_samples :
    inpC6.nRestart = some 1 ∧
    (runInfer inpC6).hypercubeCalled = true ∧
    (runInfer inpC6).optimizerCalls = 1 := by
  refine ⟨rfl, ?_, ?_⟩ <;>
    simp [runInfer, paramtime, inpC6, fileC6, allParamsRestart, codeSamplerDims, hypercube,
      List.range_succ, samplePoint, rsZero, runLoop, loopStep, padStep, finishTrace,
      methodOf, oracleConst, optZero]

/-- C6 (amended): sampling is performed precisely when the restart FLAG
is set (whatever the restart count); when the flag is unset the single
starting point is exactly the spec's parameter and initial-condition
values, unmodified. -/
theorem sampling_iff_restart_flag (inp : InferInputs)
    (hm : inp.file.malformed = false) (hn : inp.nRestart.isSome) :
    ((runInfer inp).hypercubeCalled = true ↔ inp.restart = true) ∧
    (inp.restart = false →
      (runInfer inp).startingPoints = [(inp.file.paramValues, inp.file.icValues)]) := by
  cases hr : inp.restart
  · rw [runInfer_plain inp hm hr]
    refine ⟨?_, fun _ => finishTrace_startingPoints _ _ _⟩
    rw [finishTrace_hypercubeCalled]
  · obtain ⟨n, hn2⟩ := Option.isSome_iff_exists.mp hn
    rw [runInfer_restart inp hm hr n hn2]
    refine ⟨?_, fun hc => by simp at hc⟩
    rw [finishTrace_hypercubeCalled]

/-- Plain-mode concrete run shared by several witnesses: no restart
flag, parameter values `[3]`, initial conditions `[1, 2]`, `m = 2`. -/
def filePlain : PTFile := ⟨[0], [3], [1, 2], [], [], [true], [true, true], false⟩

def inpPlain : InferInputs :=
  ⟨"p.txt", false, some 4, none, 2, filePlain, rsZero, oracleConst optZero, []⟩

/-- Witness for C6's amended theorem at the plain-mode run. -/
theorem sampling_iff_restart_flag_witness :
    inpPlain.file.malformed = false ∧ inpPlain.nRestart.isSome ∧
    (((runInfer inpPlain).hypercubeCalled = true ↔ inpPlain.restart = true) ∧
      (inpPlain.restart = false →
        (runInfer inpPlain).startingPoints
          = [(inpPlain.file.paramValues, inpPlain.file.icValues)])) :=
  ⟨rfl, rfl, sampling_iff_restart_flag inpPlain rfl rfl⟩

/-! ### C7 -/

/-- Spec file for the C7 run: one parameter, an initial-condition spec
of length 1 against `m = 2` equations (so the padding branch binds
`initcond_full`), and an optimizer whose every run fails to produce a
finite objective. -/
def fileC7 : PTFile := ⟨[0], [3], [1], [], [], [true], [true], false⟩

def inpC7 : InferInputs := ⟨"p.txt", false, some 4, none, 2, fileC7, rsZero, oracleFail, []⟩

/-- C7 counterexample: in the run `inpC7` every start's objective value
is non-finite (`⊤`), yet `write_inference_results` is still invoked and
the run does not exit non-zero — `runprogram.py:241-244` performs no
finiteness check and has no failure-summary path. -/
theorem writer_invoked_despite_all_nonfinite :
    (runInfer inpC7).sortedResults.map keyOf = [⊤] ∧
    (runInfer inpC7).writerInvoked = true ∧
    (runInfer inpC7).exitCode = none := by
  refine ⟨?_, ?_, ?_⟩ <;>
    simp [runInfer, paramtime, inpC7, fileC7, runLoop, loopStep, padStep, finishTrace,
      methodOf, oracleFail, sortResults, orderedInsertE, keyOf]

/-- C7 (amended): in EVERY run — restart flag set or not — that reaches
the write step with `initcond_full` bound (i.e. at least one start took
the padding branch, which is exactly when the trace's `finalIcFull`
carries a value), the result writer is invoked, the run does not exit
non-zero and no exception is raised, REGARDLESS of the objective values
the optimizer produced; there is no all-starts-failed summary path. -/
theorem writer_invoked_whenever_padding_occurred (inp : InferInputs) (ic : List ℚ)
    (hic : (runInfer inp).finalIcFull = some ic) :
    (runInfer inp).writerInvoked = true ∧ (runInfer inp).exitCode = none ∧
    (runInfer inp).uncaught = none := by
  cases hmal : inp.file.malformed
  · cases hr : inp.restart
    · rw [runInfer_plain inp hmal hr] at hic ⊢
      exact finishTrace_writer_of_finalIcFull _ _ _ ic hic
    · cases hnr : inp.nRestart with
      | none =>
          rw [runInfer_restart_badcount inp hmal hr hnr] at hic
          simp [crashTrace] at hic
      | some n =>
          rw [runInfer_restart inp hmal hr n hnr] at hic ⊢
          exact finishTrace_writer_of_finalIcFull _ _ _ ic hic
  · rw [runInfer_malformed inp hmal] at hic
    simp [abortTrace] at hic

/-- A restart-mode run whose every start takes the padding branch and
whose every objective is non-finite: two hypercube starts over ranges
`[(0, 2)]` / `[(0, 0)]` against `m = 2`, with the always-failing
oracle. -/
def inpC7r : InferInputs := ⟨"p.txt", true, some 2, none, 2, fileC3, rsZero, oracleFail, []⟩

/-- Witness for C7's amended theorem at the restart-mode run `inpC7r`
(all objectives non-finite, padding in both starts binds
`initcond_full` to `[0, 0]`). -/
theorem writer_invoked_whenever_padding_occurred_witness :
    (runInfer inpC7r).finalIcFull = some [0, 0] ∧
    ((runInfer inpC7r).writerInvoked = true ∧ (runInfer inpC7r).exitCode = none ∧
      (runInfer inpC7r).uncaught = none) :=
  ⟨by simp [runInfer, paramtime, inpC7r, fileC3, allParamsRestart, codeSamplerDims, hypercube,
      List.range_succ, samplePoint, rsZero, runLoop, loopStep, padStep, finishTrace,
      methodOf, oracleFail],
   writer_invoked_whenever_padding_occurred inpC7r [0, 0]
     (by simp [runInfer, paramtime, inpC7r, fileC3, allParamsRestart, codeSamplerDims,
         hypercube, List.range_succ, samplePoint, rsZero, runLoop, loopStep, padStep,
         finishTrace, methodOf, oracleFail])⟩

/-! ### C8 -/

/-- C8: if `paramtime` raises a `ValueError`, the core catches it,
prints a message naming the offending file (`runprogram.py:206-209`),
and aborts with exit status 1 before any optimization is performed (no
optimizer invocation, no report written). -/
theorem parse_error_aborts_before_optimization (inp : InferInputs)
    (h : inp.file.malformed = true) :
    (runInfer inp).exitCode = some 1 ∧
    (runInfer inp).message = inp.tpfile ++ " is not in correct format. Ensure you have entered upper and lower bounds for all parameter values." ∧
    (runInfer inp).optimizerCalls = 0 ∧
    (runInfer inp).writerInvoked = false := by
  simp [runInfer, paramtime, h, abortTrace, ptErrorMsg]

/-- A malformed spec file and a run over it. -/
def fileBad : PTFile := ⟨[], [], [], [], [], [], [], true⟩

def inpBad : InferInputs :=
  ⟨"param_time.txt", false, some 4, none, 2, fileBad, rsZero, oracleConst optZero, []⟩

/-- Witness for C8 at a concrete malformed file. -/
theorem parse_error_aborts_before_optimization_witness :
    inpBad.file.malformed = true ∧
    ((runInfer inpBad).exitCode = some 1 ∧
      (runInfer inpBad).message = inpBad.tpfile ++ " is not in correct format. Ensure you have entered upper and lower bounds for all parameter values." ∧
      (runInfer inpBad).optimizerCalls = 0 ∧
      (runInfer inpBad).writerInvoked = false) :=
  ⟨rfl, parse_error_aborts_before_optimization inpBad rfl⟩

/-! ### C9 -/

/-- Spec file and run for the C9 counterexample: objective kind
configured as the unrecognized string `"bogus"`. -/
def fileC9 : PTFile := ⟨[0], [3], [1], [], [], [true], [true], false⟩

def inpC9 : InferInputs :=
  ⟨"p.txt", false, some 4, some "bogus", 2, fileC9, rsZero, oracleConst optZero, []⟩

/-- C9 counterexample: with `--pdf=bogus` the orchestrator performs no
validation — the optimizer IS launched, exactly once, with the
unrecognized objective kind `"bogus"` (`runprogram.py:231-237`), and no
error is reported beforehand. -/
theorem unknown_objective_kind_reaches_optimizer :
    (runInfer inpC9).methods = ["bogus"] ∧
    (runInfer inpC9).optimizerCalls = 1 ∧
    (runInfer inpC9).exitCode = none ∧
    "bogus" ∉ ["sum_of_squares", "gaussian", "lognormal", "gamma", "maxent"] := by
  refine ⟨?_, ?_, ?_, by decide⟩ <;>
    simp [runInfer, paramtime, inpC9, fileC9, runLoop, loopStep, padStep, finishTrace,
      methodOf, oracleConst, optZero]

/-- C9 (amended): the orchestrator validates neither the restart count
nor the objective kind.  Whatever objective-kind string is configured is
passed through to every optimizer invocation (defaulting to
`sum_of_squares` when unset); an unparseable restart count raises an
uncaught `ValueError` at sampling time when the restart flag is set (it
is silently ignored otherwise); no configuration error is ever reported
before optimization. -/
theorem restart_count_and_objective_kind_unvalidated (inp : InferInputs)
    (hm : inp.file.malformed = false) :
    (inp.restart = false →
      (runInfer inp).methods = [methodOf inp.distribution] ∧
      (runInfer inp).optimizerCalls = 1) ∧
    (inp.restart = true → inp.nRestart = none →
      (runInfer inp).uncaught = some "ValueError" ∧
      (runInfer inp).optimizerCalls = 0 ∧ (runInfer inp).exitCode = none) ∧
    (∀ n : ℕ, inp.restart = true → inp.nRestart = some n →
      (runInfer inp).methods = List.replicate n (methodOf inp.distribution)) := by
  refine ⟨?_, ?_, ?_⟩
  · intro hr
    rw [runInfer_plain inp hm hr, finishTrace_methods, finishTrace_calls]
    constructor
    · rw [runLoop, runLoop_fold_methods]
      rfl
    · rw [runLoop, runLoop_fold_calls]
      rfl
  · intro hr hn
    rw [runInfer_restart_badcount inp hm hr hn]
    exact ⟨rfl, rfl, rfl⟩
  · intro n hr hn
    rw [runInfer_restart inp hm hr n hn, finishTrace_methods, runLoop, runLoop_fold_methods]
    simp [allParamsRestart_length]

/-- Witness for C9's amended theorem at the plain-mode run `inpC9`. -/
theorem restart_count_and_objective_kind_unvalidated_witness :
    inpC9.file.malformed = false ∧ inpC9.restart = false ∧
    ((runInfer inpC9).methods = [methodOf inpC9.distribution] ∧
      (runInfer inpC9).optimizerCalls = 1) :=
  ⟨rfl, rfl, (restart_count_and_objective_kind_unvalidated inpC9 rfl).1 rfl⟩

/-! ### C10 -/

/-- A version of `runLoop_fold_icFull_none` phrased on `runLoop`. -/
lemma runLoop_icFull_none (m : ℕ) (vary : List Bool) (method : String) (oracle : Oracle)
    (observed : List (List ℚ)) (varyic0 : List Bool) (aps : List (List ℚ × List ℚ))
    (h : ∀ p ∈ aps, p.2.length = m) :
    (runLoop m vary method oracle observed varyic0 aps).icFull = none :=
  runLoop_fold_icFull_none m vary method oracle observed aps _ h rfl

/-- C10: in every inference run that reaches the per-start loop and in
which each starting point's initial-condition vector already has length
`m` (no padding needed for any start), the `initcond_full` variable is
never bound, so the run raises an undefined-name error at the write step
(`runprogram.py:244`) and no report is produced. -/
theorem all_starts_unpadded_write_step_crashes (inp : InferInputs)
    (hm : inp.file.malformed = false)
    (hn : inp.restart = true → inp.nRestart ≠ none)
    (hlen : ∀ p ∈ (runInfer inp).startingPoints, p.2.length = inp.m) :
    (runInfer inp).finalIcFull = none ∧
    (runInfer inp).uncaught = some "UnboundLocalError" ∧
    (runInfer inp).writerInvoked = false := by
  cases hr : inp.restart
  · rw [runInfer_plain inp hm hr] at hlen ⊢
    rw [finishTrace_startingPoints] at hlen
    exact finishTrace_of_icFull_none _ _ _
      (runLoop_icFull_none _ _ _ _ _ _ _ hlen)
  · cases hnr : inp.nRestart with
    | none => exact absurd hnr (hn hr)
    | some n =>
        rw [runInfer_restart inp hm hr n hnr] at hlen ⊢
        rw [finishTrace_startingPoints] at hlen
        exact finishTrace_of_icFull_none _ _ _
          (runLoop_icFull_none _ _ _ _ _ _ _ hlen)

/-- Witness for C10 at the plain-mode run `inpPlain`, whose single
starting point's initial-condition vector `[1, 2]` already has length
`m = 2`. -/
theorem all_starts_unpadded_write_step_crashes_witness :
    inpPlain.file.malformed = false ∧
    (∀ p ∈ (runInfer inpPlain).startingPoints, p.2.length = inpPlain.m) ∧
    ((runInfer inpPlain).finalIcFull = none ∧
      (runInfer inpPlain).uncaught = some "UnboundLocalError" ∧
      (runInfer inpPlain).writerInvoked = false) :=
  ⟨rfl,
   by simp [runInfer, paramtime, inpPlain, filePlain, runLoop, loopStep, padStep,
        finishTrace, methodOf, oracleConst, optZero],
   all_starts_unpadded_write_step_crashes inpPlain rfl (fun hc => by simp [inpPlain] at hc)
     (by simp [runInfer, paramtime, inpPlain, filePlain, runLoop, loopStep, padStep,
           finishTrace, methodOf, oracleConst, optZero])⟩

end Means
